import Mathlib

/-!
# Verification of the BoviCare retrieval→rerank→synthesize pipeline

Shallow embedding of the RAG core of the repository:

* `src/RAG/rag.py` — `rerank_documents_with_similarity`, `generate_rag_response`
* `src/RAG/rag_service.py` — `RAGService.ask`
* `src/RAG/vector_service.py` — `VectorService.insert_documents`,
  `VectorService._get_dense_embedding`
* `src/RAG/test_vetbench_healthbench_style.py` —
  `_rerank_documents_with_model` / `score_document`

Modelling conventions:

* Python dict-based document records become the `Doc` structure whose fields
  are `Option String`; `doc.get(key, default)` becomes `Option.getD`.
* Python strings are Lean `String`s; slicing `s[:n]` is `strTake` (a take on
  the character list), `len` is `strLen`, `str.strip()` is `pyStrip`
  (restricted to ASCII whitespace).
* Float scores are modelled by `ℚ`; the claims under verification concern
  ordering, clamping and defaulting, none of which probe float rounding.
* The SentenceTransformer embedding model and `util.cos_sim` are external
  collaborators; they are abstracted as parameters (`encode : String → α`,
  `cos : α → α → ℚ`).  The external chat-completion client is abstracted as
  `chat : String → Except Unit String` (the argument is the user prompt; an
  `Except.error` models a raised provider exception).
* Python's `list.sort(key=..., reverse=True)` / `sorted(..., reverse=True)`
  is a stable descending sort; it is embedded as the stable insertion sort
  `sortDesc`, which produces the unique arrangement that is descending in the
  key and keeps elements with equal keys in input order — exactly CPython's
  documented behaviour.
-/

/-- ASCII whitespace as stripped by Python's `str.strip()` (the model is
restricted to the ASCII whitespace characters). -/
def isPyWs (c : Char) : Bool :=
  c = ' ' || c = '\t' || c = '\n' || c = '\x0d' || c = '\x0b' || c = '\x0c'

/-- Python `str.strip()`: drop leading and trailing whitespace. -/
def pyStrip (s : String) : String :=
  String.mk (((s.data.dropWhile isPyWs).reverse.dropWhile isPyWs).reverse)

/-- Python `len(s)` (number of characters). -/
def strLen (s : String) : Nat := s.data.length

/-- Python `s[:n]` for `n ≥ 0` (character-wise prefix). -/
def strTake (s : String) (n : Nat) : String := String.mk (s.data.take n)

/-- Python list slicing `l[:k]` with a possibly negative `k`. -/
def pyTake {α : Type} (l : List α) (k : Int) : List α :=
  if 0 ≤ k then l.take k.toNat
  else l.take ((l.length : Int) + k).toNat

/-- A retrieved document record: the string-valued entries of the Python
dicts produced by `VectorService.hybrid_search` and consumed by the rerankers
and the synthesizer.  A missing key is `none`. -/
structure Doc where
  document_id : Option String := none
  disease_type : Option String := none
  disease_name : Option String := none
  disease_id : Option String := none
  chunk_id : Option String := none
  chunk_index : Option String := none
  section_type : Option String := none
  page_number : Option String := none
  section_text : Option String := none
deriving DecidableEq, Repr

/-- Stable descending insertion: place `x` before the first element whose key
is not larger; elements with strictly larger keys stay in front. -/
def insertDesc {α : Type} (g : α → ℚ) (x : α) : List α → List α
  | [] => [x]
  | y :: ys => if g y ≤ g x then x :: y :: ys else y :: insertDesc g x ys

/-- Stable descending sort by key `g` — the embedding of Python's
`sort(key=g, reverse=True)` / `sorted(key=g, reverse=True)`. -/
def sortDesc {α : Type} (g : α → ℚ) : List α → List α
  | [] => []
  | x :: xs => insertDesc g x (sortDesc g xs)

theorem insertDesc_perm {α : Type} (g : α → ℚ) (x : α) (l : List α) :
    (insertDesc g x l).Perm (x :: l) := by
  induction l with
  | nil => simp [insertDesc]
  | cons y ys ih =>
    simp only [insertDesc]
    split
    · exact List.Perm.refl _
    · exact (ih.cons y).trans (List.Perm.swap x y ys)

theorem sortDesc_perm {α : Type} (g : α → ℚ) (l : List α) :
    (sortDesc g l).Perm l := by
  induction l with
  | nil => exact List.Perm.refl _
  | cons x xs ih =>
    exact (insertDesc_perm g x (sortDesc g xs)).trans (ih.cons x)

theorem filter_insertDesc {α : Type} (g : α → ℚ) (x : α) (l : List α) (s : ℚ) :
    (insertDesc g x l).filter (fun y => decide (g y = s)) =
      if g x = s then x :: l.filter (fun y => decide (g y = s))
      else l.filter (fun y => decide (g y = s)) := by
  induction l with
  | nil =>
    by_cases hx : g x = s <;> simp [insertDesc, List.filter, hx]
  | cons y ys ih =>
    simp only [insertDesc]
    by_cases hyx : g y ≤ g x
    · rw [if_pos hyx]
      by_cases hx : g x = s <;> simp [List.filter_cons, hx]
    · have hlt : g x < g y := lt_of_not_le hyx
      simp only [if_neg hyx, List.filter_cons, ih]
      by_cases hx : g x = s
      · have hy : ¬ g y = s := by
          intro hy
          rw [hx, hy] at hlt
          exact lt_irrefl s hlt
        simp [hx, hy]
      · simp [hx]

theorem filter_sortDesc {α : Type} (g : α → ℚ) (l : List α) (s : ℚ) :
    (sortDesc g l).filter (fun y => decide (g y = s)) =
      l.filter (fun y => decide (g y = s)) := by
  induction l with
  | nil => rfl
  | cons x xs ih =>
    simp only [sortDesc, filter_insertDesc, List.filter_cons, ih]
    by_cases hx : g x = s
    · simp [hx]
    · simp [hx]

theorem string_data_append (a b : String) : (a ++ b).data = a.data ++ b.data := by
  cases a
  cases b
  rfl

/-!
## Similarity-strategy reranker

`rerank_documents_with_similarity` in `src/RAG/rag.py`.  The loop over the
documents skips any document whose `section_text` is missing or empty
(`if not text: continue`), scores the rest, then performs a stable
descending sort on the score and strips the scores.
-/

/-- The scoring loop of `rerank_documents_with_similarity`: `score` is the
cosine similarity of the (already computed) query embedding with the
embedding of the document text. -/
def simScoreLoop (score : String → ℚ) : List Doc → List (ℚ × Doc)
  | [] => []
  | d :: ds =>
    let text := d.section_text.getD ""
    if text = "" then simScoreLoop score ds
    else (score text, d) :: simScoreLoop score ds

/-- `rerank_documents_with_similarity(query, documents)`.  The external
embedding model and `util.cos_sim` are abstracted as `encode` and `cos`; the
query is embedded once. -/
def rerankWithSimilarity {α : Type} (encode : String → α) (cos : α → α → ℚ)
    (query : String) (documents : List Doc) : List Doc :=
  if documents = [] then []
  else
    (sortDesc (fun p => p.1)
      (simScoreLoop (fun text => cos (encode query) (encode text)) documents)).map
      (fun p => p.2)

/-!
## Model-scoring reranker

`_rerank_documents_with_model` / `score_document` in
`src/RAG/test_vetbench_healthbench_style.py`.  The chat-completion client is
abstracted as `chat : String → Except Unit String` applied to the user
prompt; the regex `(\d+\.?\d*)` together with `float(...)` is embedded as
`extractFirstNumber` (ASCII digits).
-/

/-- The user prompt sent to the scoring model for one document. -/
def scoringPrompt (query : String) (docText : String) : String :=
  s!"Rate the relevance of this document to the query from 0.0 to 1.0. Query: {query}. Document: {docText}. Respond with just a number."

/-- Value of a run of decimal digit characters. -/
def digitsVal (ds : List Char) : Nat :=
  ds.foldl (fun n c => 10 * n + (c.toNat - 48)) 0

/-- Value matched by the regex `\d+\.?\d*` anchored at the start of `cs`
(whose head is a digit), converted as Python's `float` would. -/
def parseNumberAt (cs : List Char) : ℚ :=
  let intPart := cs.takeWhile Char.isDigit
  let rest := cs.dropWhile Char.isDigit
  match rest with
  | '.' :: rest2 =>
    let fracPart := rest2.takeWhile Char.isDigit
    (digitsVal intPart : ℚ) + (digitsVal fracPart : ℚ) / (10 : ℚ) ^ fracPart.length
  | _ => (digitsVal intPart : ℚ)

/-- `re.search(r'(\d+\.?\d*)', s)`: the first numeric token of `s`, if any. -/
def findFirstNumber : List Char → Option ℚ
  | [] => none
  | c :: cs =>
    if c.isDigit then some (parseNumberAt (c :: cs)) else findFirstNumber cs

/-- First numeric token of a string, as extracted by `score_document`. -/
def extractFirstNumber (s : String) : Option ℚ := findFirstNumber s.data

/-- `score_document(doc)`: sends the first 1000 characters of the document
text to the scoring model; a failed call (`Except.error`) or a reply without
a numeric token yields the neutral default 0.5, a numeric token is clamped
to [0, 1] by `max(0.0, min(1.0, score))`. -/
def scoreDocumentModel (chat : String → Except Unit String)
    (query : String) (doc : Doc) : ℚ × Doc :=
  let docText := strTake (doc.section_text.getD "") 1000
  match chat (scoringPrompt query docText) with
  | .error _ => (1/2, doc)
  | .ok content =>
    let scoreText := pyStrip content
    match extractFirstNumber scoreText with
    | some v => (max 0 (min 1 v), doc)
    | none => (1/2, doc)

/-- `_rerank_documents_with_model(query, documents)`: score every document
(`asyncio.gather` keeps the input order), stable-sort descending by score,
strip the scores. -/
def rerankWithModel (chat : String → Except Unit String)
    (query : String) (documents : List Doc) : List Doc :=
  (sortDesc (fun p => p.1) (documents.map (scoreDocumentModel chat query))).map
    (fun p => p.2)

/-- Stated from the spec's words (§4.4, model-scoring strategy): the score a
document receives — the first numeric token of the reply clamped to
[0.0, 1.0], or the neutral default 0.5 when the request fails or no numeric
token is found. -/
def specModelScore (chat : String → Except Unit String)
    (query : String) (doc : Doc) : ℚ :=
  match chat (scoringPrompt query (strTake (doc.section_text.getD "") 1000)) with
  | .error _ => 1/2
  | .ok content =>
    match extractFirstNumber (pyStrip content) with
    | some v => max 0 (min 1 v)
    | none => 1/2

theorem scoreDocumentModel_eq (chat : String → Except Unit String)
    (query : String) (doc : Doc) :
    scoreDocumentModel chat query doc = (specModelScore chat query doc, doc) := by
  simp only [scoreDocumentModel, specModelScore]
  cases h : chat (scoringPrompt query (strTake (doc.section_text.getD "") 1000)) with
  | error e => simp
  | ok content =>
    cases h2 : extractFirstNumber (pyStrip content) with
    | none => simp [h2]
    | some v => simp [h2]

/-!
## Synthesizer

`generate_rag_response` in `src/RAG/rag.py`.
-/

/-- The prefix of `cs` that stands before its last space character, if `cs`
contains a space at all — `s.rsplit(" ", 1)[0]` on character lists. -/
def beforeLastSpace : List Char → Option (List Char)
  | [] => none
  | c :: cs =>
    match beforeLastSpace cs with
    | some pre => some (c :: pre)
    | none => if c = ' ' then some [] else none

/-- Python `t.rsplit(" ", 1)[0]`: everything before the last space, or the
whole string when it contains no space. -/
def rsplitSpaceHead (t : String) : String :=
  match beforeLastSpace t.data with
  | some pre => String.mk pre
  | none => t

/-- The snippet of a document's `section_text` emitted by
`generate_rag_response`: text of more than 400 characters becomes
`snippet[:400].rsplit(" ", 1)[0] + "..."`. -/
def makeSnippet (text : String) : String :=
  if 400 < strLen text then rsplitSpaceHead (strTake text 400) ++ "..." else text

/-- One citation block of the synthesized answer, with the documented
defaults for missing fields. -/
def docBlock (doc : Doc) : String :=
  let name := doc.disease_name.getD "Doença não identificada"
  let sectionLabel := doc.section_type.getD "seção"
  let snippet := makeSnippet (doc.section_text.getD "")
  s!"• Fonte: {name} ({sectionLabel})\n  {snippet}"

/-- `generate_rag_response(query, context_docs)`. -/
def generateRagResponse (query : String) (contextDocs : List Doc) : String :=
  if contextDocs = [] then
    "Não encontrei informações relevantes para responder a essa pergunta na base de diagnóstico."
  else
    let header := s!"Resumo das principais informações encontradas sobre \x27{query}\x27:"
    let parts := header :: (contextDocs.take 3).map docBlock
      ++ ["Recomendo avaliar as fontes citadas acima para detalhes adicionais."]
    String.intercalate "\n\n" parts

/-- A document with the synthesizer's documented defaults substituted for
its missing optional fields. -/
def fillDefaults (d : Doc) : Doc :=
  { d with
    disease_name := some (d.disease_name.getD "Doença não identificada")
    section_type := some (d.section_type.getD "seção")
    section_text := some (d.section_text.getD "") }

/-!
## Orchestrator

`RAGService.ask` in `src/RAG/rag_service.py`.  The vector store is external:
`hybrid_search` is abstracted as `search : String → Int → List Doc`
(query and requested `top_k`).  `askCore` additionally abstracts the
reranker and the synthesizer so that the short-circuit on an empty
retrieval can be stated for every possible reranker and synthesizer.
-/

/-- One entry of the `sources` list built by `RAGService.ask`. -/
structure SourceCitation where
  disease_name : Option String
  section_type : Option String
  page_number : Option String
  content_preview : String
deriving DecidableEq, Repr

/-- The dict returned by `RAGService.ask`. -/
structure AnswerResult where
  answer : String
  sources : List SourceCitation
deriving DecidableEq, Repr

/-- `top_k = top_k or self.top_k_default`: `None` and the falsy `0` both
select the configured default. -/
def effectiveTopK (topK : Option Int) (topKDefault : Int) : Int :=
  match topK with
  | none => topKDefault
  | some k => if k = 0 then topKDefault else k

/-- The fallback result returned when retrieval finds nothing. -/
def fallbackAnswer : AnswerResult :=
  { answer := "Não encontrei informações relevantes na base de diagnóstico."
    sources := [] }

/-- One source citation built by `RAGService.ask` from a selected document:
`content_preview` is `doc.get("section_text", "")[:200]`. -/
def mkSourceCitation (d : Doc) : SourceCitation :=
  { disease_name := d.disease_name
    section_type := d.section_type
    page_number := d.page_number
    content_preview := strTake (d.section_text.getD "") 200 }

/-- The body of `RAGService.ask` with the reranker and the synthesizer as
explicit parameters. -/
def askCore (search : String → Int → List Doc)
    (rerank : String → List Doc → List Doc)
    (synth : String → List Doc → String)
    (topKDefault : Int) (query : String) (topK : Option Int) : AnswerResult :=
  let tk := effectiveTopK topK topKDefault
  let documents := search query (tk * 2)
  if documents = [] then fallbackAnswer
  else
    let ranked := rerank query documents
    let selected := pyTake ranked tk
    { answer := synth query selected
      sources := selected.map mkSourceCitation }

/-- `RAGService.ask(query, top_k)`: retrieval (over-fetching `2 × topK`),
short-circuit on empty results, similarity rerank, selection of the first
`topK`, synthesis, and construction of the bounded source citations. -/
def RAGService.ask {α : Type} (encode : String → α) (cos : α → α → ℚ)
    (search : String → Int → List Doc)
    (topKDefault : Int) (query : String) (topK : Option Int) : AnswerResult :=
  askCore search (rerankWithSimilarity encode cos) generateRagResponse
    topKDefault query topK

/-!
## Vector service

`VectorService._get_dense_embedding` and the record-preparation loop of
`VectorService.insert_documents` in `src/RAG/vector_service.py`.  The
embedding model is abstracted as `encode : String → List ℚ` with dimension
`dim`.
-/

/-- `_get_dense_embedding(text)`: whitespace-only text maps to the zero
vector of the model's dimension; anything else is encoded. -/
def getDenseEmbedding (encode : String → List ℚ) (dim : Nat)
    (text : String) : List ℚ :=
  if pyStrip text = "" then List.replicate dim 0 else encode text

/-- One row prepared for `client.insert`: every field stringified with
default `""`, plus the dense vector. -/
structure InsertRecord where
  id : String
  document_id : String
  disease_type : String
  disease_name : String
  disease_id : String
  chunk_id : String
  chunk_index : String
  section_type : String
  page_number : String
  section_text : String
  dense_vector : List ℚ
deriving DecidableEq, Repr

/-- `chunk_id = str(doc.get('chunk_id', '')).strip()` with the positional
fallback `f"chunk_{i + 1}"` when the stripped id is empty. -/
def preparedChunkId (i : Nat) (doc : Doc) : String :=
  let cid := pyStrip (doc.chunk_id.getD "")
  if cid = "" then "chunk_" ++ toString (i + 1) else cid

/-- The `document_data` dict built by `insert_documents` for the document at
index `i`. -/
def prepareRecord (encode : String → List ℚ) (dim : Nat)
    (i : Nat) (doc : Doc) : InsertRecord :=
  let cid := preparedChunkId i doc
  { id := cid
    document_id := doc.document_id.getD ""
    disease_type := doc.disease_type.getD ""
    disease_name := doc.disease_name.getD ""
    disease_id := doc.disease_id.getD ""
    chunk_id := cid
    chunk_index := doc.chunk_index.getD ""
    section_type := doc.section_type.getD ""
    page_number := doc.page_number.getD ""
    section_text := doc.section_text.getD ""
    dense_vector := getDenseEmbedding encode dim (doc.section_text.getD "") }

/-- The preparation loop of `insert_documents` starting at index `i`. -/
def prepareDataFrom (encode : String → List ℚ) (dim : Nat) :
    Nat → List Doc → List InsertRecord
  | _, [] => []
  | i, d :: ds => prepareRecord encode dim i d :: prepareDataFrom encode dim (i + 1) ds

/-- The full `data` list handed to `client.insert` by `insert_documents`
(enumeration starts at 0). -/
def prepareData (encode : String → List ℚ) (dim : Nat)
    (docs : List Doc) : List InsertRecord :=
  prepareDataFrom encode dim 0 docs

/-- Placeholder record used with `List.getD` in statements about
`prepareData`. -/
def defaultInsertRecord : InsertRecord :=
  { id := "", document_id := "", disease_type := "", disease_name := ""
    disease_id := "", chunk_id := "", chunk_index := "", section_type := ""
    page_number := "", section_text := "", dense_vector := [] }

/-- Placeholder document used with `List.getD` in statements. -/
def defaultDoc : Doc := {}

/-!
## Helper lemmas
-/

theorem simScoreLoop_eq (score : String → ℚ) (l : List Doc) :
    simScoreLoop score l =
      (l.filter (fun d => !(decide ((d.section_text.getD "") = "")))).map
        (fun d => (score (d.section_text.getD ""), d)) := by
  induction l with
  | nil => rfl
  | cons d ds ih =>
    simp only [simScoreLoop, List.filter_cons]
    by_cases h : (d.section_text.getD "") = ""
    · simp [h, ih]
    · simp [h, ih]

theorem map_snd_sortDesc_perm {α : Type} (L : List (ℚ × α)) :
    ((sortDesc (fun p => p.1) L).map (fun p => p.2)).Perm
      (L.map (fun p => p.2)) :=
  (sortDesc_perm _ L).map _

theorem rerankWithModel_perm (chat : String → Except Unit String)
    (query : String) (docs : List Doc) :
    (rerankWithModel chat query docs).Perm docs := by
  unfold rerankWithModel
  have h := map_snd_sortDesc_perm (docs.map (scoreDocumentModel chat query))
  have h2 : (docs.map (scoreDocumentModel chat query)).map (fun p => p.2) = docs := by
    rw [List.map_map]
    have : ∀ d ∈ docs, ((fun p : ℚ × Doc => p.2) ∘ scoreDocumentModel chat query) d = d := by
      intro d _
      simp [Function.comp, scoreDocumentModel_eq]
    rw [List.map_congr_left this, List.map_id']
  rw [h2] at h
  exact h

theorem rerankWithSimilarity_perm {α : Type} (encode : String → α)
    (cos : α → α → ℚ) (query : String) (docs : List Doc) :
    (rerankWithSimilarity encode cos query docs).Perm
      (docs.filter (fun d => !(decide ((d.section_text.getD "") = "")))) := by
  unfold rerankWithSimilarity
  by_cases hd : docs = []
  · simp [hd]
  · rw [if_neg hd, simScoreLoop_eq]
    have h := map_snd_sortDesc_perm
      ((docs.filter (fun d => !(decide ((d.section_text.getD "") = "")))).map
        (fun d => (cos (encode query) (encode (d.section_text.getD "")), d)))
    rw [List.map_map] at h
    have h2 : ∀ d ∈ docs.filter (fun d => !(decide ((d.section_text.getD "") = ""))),
        ((fun p : ℚ × Doc => p.2) ∘
          (fun d => (cos (encode query) (encode (d.section_text.getD "")), d))) d = d := by
      intro d _
      rfl
    rw [List.map_congr_left h2, List.map_id'] at h
    exact h

theorem sortDesc_stable_key {α : Type} (f : α → ℚ) (l : List α) (s : ℚ) :
    ((sortDesc (fun p : ℚ × α => p.1) (l.map (fun a => (f a, a)))).map
        (fun p => p.2)).filter (fun a => decide (f a = s)) =
      l.filter (fun a => decide (f a = s)) := by
  have hmemL : ∀ p ∈ l.map (fun a => (f a, a)), p.1 = f p.2 := by
    intro p hp
    obtain ⟨a, _, rfl⟩ := List.mem_map.mp hp
    rfl
  have hmemS : ∀ p ∈ sortDesc (fun p : ℚ × α => p.1) (l.map (fun a => (f a, a))),
      p.1 = f p.2 := by
    intro p hp
    exact hmemL p ((sortDesc_perm _ _).mem_iff.mp hp)
  rw [List.filter_map]
  have h1 : List.filter ((fun a => decide (f a = s)) ∘ (fun p : ℚ × α => p.2))
      (sortDesc (fun p : ℚ × α => p.1) (l.map (fun a => (f a, a)))) =
      List.filter (fun p : ℚ × α => decide (p.1 = s))
      (sortDesc (fun p : ℚ × α => p.1) (l.map (fun a => (f a, a)))) := by
    apply List.filter_congr
    intro p hp
    simp [Function.comp, hmemS p hp]
  rw [h1, filter_sortDesc]
  have h2 : List.filter (fun p : ℚ × α => decide (p.1 = s))
      (l.map (fun a => (f a, a))) =
      List.filter ((fun a => decide (f a = s)) ∘ (fun p : ℚ × α => p.2))
      (l.map (fun a => (f a, a))) := by
    apply List.filter_congr
    intro p hp
    simp [Function.comp, hmemL p hp]
  rw [h2, ← List.filter_map]
  rw [List.map_map]
  have h3 : ∀ a ∈ l, ((fun p : ℚ × α => p.2) ∘ (fun a => (f a, a))) a = a := by
    intro a _
    rfl
  rw [List.map_congr_left h3, List.map_id']

theorem pyStrip_eq_empty_of_ws (s : String) (h : s.data.all isPyWs = true) :
    pyStrip s = "" := by
  unfold pyStrip
  have h1 : s.data.dropWhile isPyWs = [] := by
    rw [List.dropWhile_eq_nil_iff]
    intro x hx
    exact List.all_eq_true.mp h x hx
  rw [h1]
  rfl

theorem beforeLastSpace_none : ∀ {cs : List Char},
    beforeLastSpace cs = none → ' ' ∉ cs := by
  intro cs
  induction cs with
  | nil =>
    intro _
    exact List.not_mem_nil _
  | cons c cs ih =>
    intro h
    cases hb : beforeLastSpace cs with
    | some pre => simp [beforeLastSpace, hb] at h
    | none =>
      simp only [beforeLastSpace, hb] at h
      by_cases hc : c = ' '
      · simp [hc] at h
      · intro hmem
        rcases List.mem_cons.mp hmem with h1 | h2
        · exact hc h1.symm
        · exact ih hb h2

theorem beforeLastSpace_some : ∀ {cs pre : List Char},
    beforeLastSpace cs = some pre →
      ∃ rest, cs = pre ++ ' ' :: rest ∧ ' ' ∉ rest := by
  intro cs
  induction cs with
  | nil =>
    intro pre h
    simp [beforeLastSpace] at h
  | cons c cs ih =>
    intro pre h
    cases hb : beforeLastSpace cs with
    | some p2 =>
      simp only [beforeLastSpace, hb] at h
      obtain ⟨rest, hcs, hrest⟩ := ih hb
      have hpre : c :: p2 = pre := Option.some.inj h
      refine ⟨rest, ?_, hrest⟩
      rw [← hpre, hcs]
      rfl
    | none =>
      simp only [beforeLastSpace, hb] at h
      by_cases hc : c = ' '
      · rw [if_pos hc] at h
        have hpre : ([] : List Char) = pre := Option.some.inj h
        refine ⟨cs, ?_, beforeLastSpace_none hb⟩
        rw [← hpre, hc]
        rfl
      · rw [if_neg hc] at h
        exact absurd h (by simp)

theorem strLen_strTake (s : String) (n : Nat) :
    strLen (strTake s n) = min n (strLen s) :=
  List.length_take n s.data

theorem preparedChunkId_ne_empty (i : Nat) (doc : Doc) :
    preparedChunkId i doc ≠ "" := by
  unfold preparedChunkId
  by_cases h : pyStrip (doc.chunk_id.getD "") = ""
  · rw [if_pos h]
    intro habs
    have hdata := congrArg String.data habs
    rw [string_data_append] at hdata
    have : ("chunk_".data : List Char) = 'c' :: 'h' :: 'u' :: 'n' :: 'k' :: '_' :: [] := rfl
    rw [this] at hdata
    exact absurd hdata (by simp)
  · rw [if_neg h]
    exact h

theorem prepareDataFrom_length (encode : String → List ℚ) (dim : Nat) :
    ∀ (i : Nat) (docs : List Doc),
      (prepareDataFrom encode dim i docs).length = docs.length := by
  intro i docs
  induction docs generalizing i with
  | nil => rfl
  | cons d ds ih => simp [prepareDataFrom, ih]

theorem prepareDataFrom_getD (encode : String → List ℚ) (dim : Nat) :
    ∀ (docs : List Doc) (st j : Nat), j < docs.length →
      (prepareDataFrom encode dim st docs).getD j defaultInsertRecord =
        prepareRecord encode dim (st + j) (docs.getD j defaultDoc) := by
  intro docs
  induction docs with
  | nil =>
    intro st j hj
    exact absurd hj (by simp)
  | cons d ds ih =>
    intro st j hj
    cases j with
    | zero => simp [prepareDataFrom]
    | succ j =>
      have hj2 : j < ds.length := by
        simpa using Nat.lt_of_succ_lt_succ hj
      have := ih (st + 1) j hj2
      simp only [prepareDataFrom, List.getD_cons_succ, this]
      have harith : st + 1 + j = st + (j + 1) := by omega
      rw [harith]

theorem prepareDataFrom_all_ne (encode : String → List ℚ) (dim : Nat) :
    ∀ (i : Nat) (docs : List Doc),
      (prepareDataFrom encode dim i docs).all (fun r => !(decide (r.id = ""))) = true := by
  intro i docs
  induction docs generalizing i with
  | nil => rfl
  | cons d ds ih =>
    simp only [prepareDataFrom, List.all_cons, ih, Bool.and_true]
    simp [prepareRecord, preparedChunkId_ne_empty i d]

theorem docBlock_fillDefaults (d : Doc) : docBlock (fillDefaults d) = docBlock d := rfl

theorem generateRagResponse_fillDefaults (query : String) (docs : List Doc) :
    generateRagResponse query (docs.map fillDefaults) =
      generateRagResponse query docs := by
  cases docs with
  | nil => rfl
  | cons d ds =>
    simp only [generateRagResponse, List.map_eq_nil_iff]
    rw [if_neg (by simp), if_neg (by simp)]
    have h1 : ((d :: ds).map fillDefaults).take 3 = ((d :: ds).take 3).map fillDefaults := by
      rw [List.map_take]
    rw [h1, List.map_map]
    have h2 : ∀ x ∈ (d :: ds).take 3, (docBlock ∘ fillDefaults) x = docBlock x := by
      intro x _
      exact docBlock_fillDefaults x
    rw [List.map_congr_left h2]

/-!
## Claims
-/

/-- C1 (amended): the model-scoring rerank strategy always returns a
permutation of its input; the similarity strategy returns a permutation of
those input documents whose `section_text` is present and non-empty — the
loop `if not text: continue` in `rerank_documents_with_similarity` drops
documents whose `section_text` is missing or empty, so under that strategy
the output is a permutation of the full input only when every document has
non-empty text. -/
theorem C1_rerank_permutation {α : Type} (encode : String → α) (cos : α → α → ℚ)
    (chat : String → Except Unit String) (query : String) (docs : List Doc) :
    (rerankWithModel chat query docs).Perm docs
    ∧ (rerankWithSimilarity encode cos query docs).Perm
        (docs.filter (fun d => !(decide ((d.section_text.getD "") = "")))) :=
  ⟨rerankWithModel_perm chat query docs,
   rerankWithSimilarity_perm encode cos query docs⟩

/-- A document without `section_text`, dropped by the similarity reranker. -/
def emptyTextDoc : Doc := {}

/-- C1 counterexample: for a single document with no `section_text`, the
similarity strategy returns the empty list, which is not a permutation of
the input — the claim "no documents added and none removed under both
strategies" fails. -/
theorem C1_counterexample :
    ¬ (rerankWithSimilarity (fun _ : String => (0 : ℚ)) (fun _ _ => (0 : ℚ)) "q"
        [emptyTextDoc]).Perm [emptyTextDoc] := by decide

/-- C2 (amended): for `section_text` longer than 400 characters the snippet
is built from the first 400 characters: when they contain a space,
everything from the last space on is dropped and `"..."` is appended; when
they contain no space the whole 400-character prefix is kept — cutting
mid-word — and `"..."` is appended (total length 403).  The snippet always
ends with the ellipsis marker and its length is at most 403, not 400 as
claimed. -/
theorem C2_snippet_truncation (t : String) (h : 400 < strLen t) :
    strLen (makeSnippet t) ≤ 403
    ∧ (∃ pre, (makeSnippet t).data = pre ++ ['.', '.', '.'])
    ∧ (' ' ∈ (strTake t 400).data →
        ∃ pre rest, (strTake t 400).data = pre ++ ' ' :: rest ∧ ' ' ∉ rest
          ∧ (makeSnippet t).data = pre ++ ['.', '.', '.'])
    ∧ (' ' ∉ (strTake t 400).data →
        (makeSnippet t).data = (strTake t 400).data ++ ['.', '.', '.']) := by
  have hT : (strTake t 400).data.length = 400 := by
    have h1 : (strTake t 400).data.length = min 400 t.data.length :=
      List.length_take 400 t.data
    have h2 : 400 < t.data.length := h
    omega
  cases hb : beforeLastSpace (strTake t 400).data with
  | none =>
    have hms : makeSnippet t = strTake t 400 ++ "..." := by
      unfold makeSnippet rsplitSpaceHead
      rw [if_pos h, hb]
    have hns := beforeLastSpace_none hb
    have hdata : (makeSnippet t).data = (strTake t 400).data ++ ['.', '.', '.'] := by
      rw [hms, string_data_append]
    refine ⟨?_, ⟨(strTake t 400).data, hdata⟩, ?_, ?_⟩
    · unfold strLen
      rw [hdata, List.length_append, hT]
      simp
    · intro hsp
      exact absurd hsp hns
    · intro _
      exact hdata
  | some pre =>
    obtain ⟨rest, hcs, hrest⟩ := beforeLastSpace_some hb
    have hms : makeSnippet t = String.mk pre ++ "..." := by
      unfold makeSnippet rsplitSpaceHead
      rw [if_pos h, hb]
    have hlenpre : pre.length ≤ 399 := by
      rw [hcs, List.length_append, List.length_cons] at hT
      omega
    have hdata : (makeSnippet t).data = pre ++ ['.', '.', '.'] := by
      rw [hms, string_data_append]
    refine ⟨?_, ⟨pre, hdata⟩, ?_, ?_⟩
    · unfold strLen
      rw [hdata, List.length_append]
      simp only [List.length_cons, List.length_nil]
      omega
    · intro _
      exact ⟨pre, rest, hcs, hrest, hdata⟩
    · intro hns
      refine absurd ?_ hns
      rw [hcs]
      exact List.mem_append_right _ (List.mem_cons_self _ _)

/-- 401 identical letters: no space in the first 400 characters. -/
def longRun : String := String.mk (List.replicate 401 'a')

set_option maxRecDepth 4000 in
/-- C2 counterexample: on 401 letters with no whitespace the emitted snippet
is the 400-letter prefix — a cut inside the word — followed by `"..."`, of
total length 403 > 400, refuting both the ≤ 400 length bound and the
never-mid-word clause of the claim. -/
theorem C2_counterexample :
    400 < strLen longRun
    ∧ ¬ strLen (makeSnippet longRun) ≤ 400
    ∧ makeSnippet longRun = String.mk (List.replicate 400 'a') ++ "..." := by
  refine ⟨by decide, by decide, by decide⟩

/-- A 500-character text whose 400-character prefix contains a space. -/
def spacedText : String :=
  String.mk (List.replicate 200 'a' ++ ' ' :: List.replicate 299 'b')

set_option maxRecDepth 4000 in
/-- C2 witness: the amended truncation theorem applied to a concrete long
text containing a space. -/
theorem C2_witness :
    400 < strLen spacedText
    ∧ (strLen (makeSnippet spacedText) ≤ 403
      ∧ (∃ pre, (makeSnippet spacedText).data = pre ++ ['.', '.', '.'])
      ∧ (' ' ∈ (strTake spacedText 400).data →
          ∃ pre rest, (strTake spacedText 400).data = pre ++ ' ' :: rest ∧ ' ' ∉ rest
            ∧ (makeSnippet spacedText).data = pre ++ ['.', '.', '.'])
      ∧ (' ' ∉ (strTake spacedText 400).data →
          (makeSnippet spacedText).data = (strTake spacedText 400).data ++ ['.', '.', '.'])) :=
  ⟨by decide, C2_snippet_truncation spacedText (by decide)⟩

/-- C3: for every `topK ≥ 1` the answer of `ask` carries at most `topK`
source citations — the sources are built from `ranked[:top_k]` — and every
citation's `content_preview`, built as `section_text[:200]`, has at most
200 characters. -/
theorem C3_bounded_sources {α : Type} (encode : String → α) (cos : α → α → ℚ)
    (search : String → Int → List Doc) (topKDefault : Int) (query : String)
    (k : Int) (hk : 1 ≤ k) :
    ((RAGService.ask encode cos search topKDefault query (some k)).sources.length : Int) ≤ k
    ∧ (RAGService.ask encode cos search topKDefault query (some k)).sources.all
        (fun c => decide (strLen c.content_preview ≤ 200)) = true := by
  have hk0 : ¬ (k = 0) := by omega
  have heff : effectiveTopK (some k) topKDefault = k := by
    simp [effectiveTopK, hk0]
  simp only [RAGService.ask, askCore, heff]
  by_cases hd : search query (k * 2) = []
  · rw [if_pos hd]
    refine ⟨by simp [fallbackAnswer]; omega, by simp [fallbackAnswer]⟩
  · rw [if_neg hd]
    constructor
    · simp only [List.length_map]
      unfold pyTake
      rw [if_pos (by omega : (0 : Int) ≤ k)]
      have hle := List.length_take_le k.toNat
        (rerankWithSimilarity encode cos query (search query (k * 2)))
      have hcast : ((k.toNat : Int)) = k := Int.toNat_of_nonneg (by omega)
      omega
    · rw [List.all_eq_true]
      intro c hc
      obtain ⟨dd, _, rfl⟩ := List.mem_map.mp hc
      simp only [mkSourceCitation, decide_eq_true_eq]
      rw [strLen_strTake]
      exact Nat.min_le_left _ _

/-- Three retrievable documents used to witness C3. -/
def threeDocs : List Doc :=
  [ { disease_name := some "Mastite", section_text := some "sinais" },
    { disease_name := some "BVD", section_text := some "texto" },
    { disease_name := some "IBR", section_text := some "mais texto" } ]

/-- C3 witness: the bound instantiated at `topK = 2` over a three-document
corpus. -/
theorem C3_witness :
    1 ≤ (2 : Int)
    ∧ (((RAGService.ask (fun _ : String => (0 : ℚ)) (fun _ _ => (0 : ℚ))
          (fun _ _ => threeDocs) 5 "mastite" (some 2)).sources.length : Int) ≤ 2
      ∧ (RAGService.ask (fun _ : String => (0 : ℚ)) (fun _ _ => (0 : ℚ))
          (fun _ _ => threeDocs) 5 "mastite" (some 2)).sources.all
          (fun c => decide (strLen c.content_preview ≤ 200)) = true) :=
  ⟨by decide,
   C3_bounded_sources (fun _ : String => (0 : ℚ)) (fun _ _ => (0 : ℚ))
     (fun _ _ => threeDocs) 5 "mastite" 2 (by decide)⟩

/-- C4: when retrieval returns the empty list, `ask` returns the fixed
fallback message with an empty source list; the result is the same for
every possible reranker and synthesizer — `askCore` is quantified over both
— so neither is invoked on the short-circuit path. -/
theorem C4_empty_short_circuit {α : Type} (encode : String → α) (cos : α → α → ℚ)
    (search : String → Int → List Doc)
    (rerank : String → List Doc → List Doc) (synth : String → List Doc → String)
    (topKDefault : Int) (query : String) (topK : Option Int)
    (h : search query (effectiveTopK topK topKDefault * 2) = []) :
    askCore search rerank synth topKDefault query topK = fallbackAnswer
    ∧ RAGService.ask encode cos search topKDefault query topK = fallbackAnswer := by
  constructor
  · simp [askCore, h]
  · simp [RAGService.ask, askCore, h]

/-- C4 witness: the short-circuit applied to a retriever that always comes
back empty. -/
theorem C4_witness :
    (fun _ _ => ([] : List Doc)) "mastite" (effectiveTopK none 5 * 2) = ([] : List Doc)
    ∧ (askCore (fun _ _ => ([] : List Doc)) (fun _ l => l) (fun _ _ => "")
          5 "mastite" none = fallbackAnswer
      ∧ RAGService.ask (fun _ : String => (0 : ℚ)) (fun _ _ => (0 : ℚ))
          (fun _ _ => ([] : List Doc)) 5 "mastite" none = fallbackAnswer) :=
  ⟨rfl,
   C4_empty_short_circuit (fun _ : String => (0 : ℚ)) (fun _ _ => (0 : ℚ))
     (fun _ _ => ([] : List Doc)) (fun _ l => l) (fun _ _ => "") 5 "mastite" none rfl⟩

/-- C5: in the model-scoring strategy no document is ever dropped — the
output has the input's length and contains every input document — and each
document's score follows the per-document policy `specModelScore`: 0.5 when
the scoring call fails or its reply has no numeric token, and the first
numeric token clamped to [0, 1] otherwise; a failing call affects only that
document's score, never the batch. -/
theorem C5_scoring_isolation (chat : String → Except Unit String) (query : String)
    (docs : List Doc) (d : Doc) (hmem : d ∈ docs) :
    (rerankWithModel chat query docs).length = docs.length
    ∧ d ∈ rerankWithModel chat query docs
    ∧ scoreDocumentModel chat query d = (specModelScore chat query d, d) := by
  have hperm := rerankWithModel_perm chat query docs
  exact ⟨hperm.length_eq, hperm.mem_iff.mpr hmem, scoreDocumentModel_eq chat query d⟩

/-- A chat client whose every call raises. -/
def chatErr : String → Except Unit String := fun _ => Except.error ()

/-- A document given to the failing scorer. -/
def failDoc : Doc := { section_text := some "bovine disease text" }

/-- C5 witness: a document whose scoring call fails still appears in the
reranked output, and its score is the neutral default. -/
theorem C5_witness :
    failDoc ∈ [failDoc]
    ∧ ((rerankWithModel chatErr "q" [failDoc]).length = [failDoc].length
      ∧ failDoc ∈ rerankWithModel chatErr "q" [failDoc]
      ∧ scoreDocumentModel chatErr "q" failDoc
          = (specModelScore chatErr "q" failDoc, failDoc)) :=
  ⟨by decide, C5_scoring_isolation chatErr "q" [failDoc] failDoc (by decide)⟩

/-- The score the similarity strategy computes for one document. -/
def simDocScore {α : Type} (encode : String → α) (cos : α → α → ℚ)
    (query : String) (d : Doc) : ℚ :=
  cos (encode query) (encode (d.section_text.getD ""))

/-- The score the model strategy computes for one document. -/
def modelDocScore (chat : String → Except Unit String) (query : String)
    (d : Doc) : ℚ :=
  (scoreDocumentModel chat query d).1

/-- C6: both rerank strategies are stable on exact ties — for every score
value `s`, the subsequence of output documents whose computed score is `s`
equals, in order, the subsequence of (scored) input documents with that
score, so two documents with equal scores keep their relative input
order. -/
theorem C6_stable_ties {α : Type} (encode : String → α) (cos : α → α → ℚ)
    (chat : String → Except Unit String) (query : String) (docs : List Doc)
    (s : ℚ) :
    (rerankWithSimilarity encode cos query docs).filter
        (fun d => decide (simDocScore encode cos query d = s)) =
      (docs.filter (fun d => !(decide ((d.section_text.getD "") = "")))).filter
        (fun d => decide (simDocScore encode cos query d = s))
    ∧ (rerankWithModel chat query docs).filter
        (fun d => decide (modelDocScore chat query d = s)) =
      docs.filter (fun d => decide (modelDocScore chat query d = s)) := by
  constructor
  · by_cases hd : docs = []
    · simp [rerankWithSimilarity, hd]
    · unfold rerankWithSimilarity
      rw [if_neg hd, simScoreLoop_eq]
      simp only [simDocScore]
      exact sortDesc_stable_key
        (fun d => cos (encode query) (encode (d.section_text.getD "")))
        (docs.filter (fun d => !(decide ((d.section_text.getD "") = "")))) s
  · unfold rerankWithModel
    have hmap : docs.map (scoreDocumentModel chat query) =
        docs.map (fun d => (modelDocScore chat query d, d)) := by
      apply List.map_congr_left
      intro d _
      rw [scoreDocumentModel_eq]
      simp [modelDocScore, scoreDocumentModel_eq]
    rw [hmap]
    exact sortDesc_stable_key (modelDocScore chat query) docs s

/-- C7: the synthesizer is a total function (it can raise no exception in
this embedding); on the empty ranked list it returns the fixed "no relevant
information found" message, and substituting the documented defaults
("Doença não identificada", "seção", "") for missing optional fields leaves
its output unchanged — missing fields are recovered via those defaults. -/
theorem C7_synthesizer_total (query : String) (docs : List Doc) :
    generateRagResponse query []
      = "Não encontrei informações relevantes para responder a essa pergunta na base de diagnóstico."
    ∧ generateRagResponse query (docs.map fillDefaults) = generateRagResponse query docs :=
  ⟨rfl, generateRagResponse_fillDefaults query docs⟩

/-- C8: empty or whitespace-only text is embedded as the zero vector of the
provider's dimension `dim` instead of reaching the encoder. -/
theorem C8_zero_vector (encode : String → List ℚ) (dim : Nat) (text : String)
    (h : text.data.all isPyWs = true) :
    getDenseEmbedding encode dim text = List.replicate dim 0
    ∧ (getDenseEmbedding encode dim text).length = dim := by
  have hs : pyStrip text = "" := pyStrip_eq_empty_of_ws text h
  exact ⟨by simp [getDenseEmbedding, hs], by simp [getDenseEmbedding, hs]⟩

/-- C8 witness: the zero-vector result on a whitespace-only input at
dimension 3. -/
theorem C8_witness :
    (" \t ".data.all isPyWs = true)
    ∧ (getDenseEmbedding (fun _ => []) 3 " \t " = List.replicate 3 0
      ∧ (getDenseEmbedding (fun _ => []) 3 " \t ").length = 3) :=
  ⟨by decide, C8_zero_vector (fun _ => []) 3 " \t " (by decide)⟩

/-- Six retrievable documents used to witness C9. -/
def sixDocs : List Doc := List.replicate 6 { section_text := some "t" }

/-- C9: `top_k or self.top_k_default` treats the falsy `0` (and `None`) as
"use the default": with `topK = 0` the pipeline behaves exactly as with
`topK` omitted, and on a six-document corpus with the default of 5 the
caller passing 0 receives 5 sources rather than none. -/
theorem C9_falsy_topk {α : Type} (encode : String → α) (cos : α → α → ℚ)
    (search : String → Int → List Doc) (topKDefault : Int) (query : String) :
    effectiveTopK (some 0) topKDefault = topKDefault
    ∧ RAGService.ask encode cos search topKDefault query (some 0)
        = RAGService.ask encode cos search topKDefault query none
    ∧ (RAGService.ask (fun _ : String => (0 : ℚ)) (fun _ _ => (0 : ℚ))
        (fun _ _ => sixDocs) 5 "mastite" (some 0)).sources.length = 5 :=
  ⟨rfl, rfl, by decide⟩

/-- C10: the record-preparation loop of `insert_documents` never rejects a
record for lacking a `chunk_id`: a missing, empty or whitespace-only
`chunk_id` is replaced by the positional `"chunk_{i+1}"`, the record's
`chunk_id` field always equals its primary key `id`, and every prepared
record carries a non-empty `id`. -/
theorem C10_chunk_id_fallback (encode : String → List ℚ) (dim : Nat)
    (docs : List Doc) (i : Nat) (h1 : i < docs.length)
    (h2 : ((docs.getD i defaultDoc).chunk_id.getD "").data.all isPyWs = true) :
    ((prepareData encode dim docs).getD i defaultInsertRecord).id
        = "chunk_" ++ toString (i + 1)
    ∧ ((prepareData encode dim docs).getD i defaultInsertRecord).chunk_id
        = ((prepareData encode dim docs).getD i defaultInsertRecord).id
    ∧ (prepareData encode dim docs).all (fun r => !(decide (r.id = ""))) = true := by
  have hget := prepareDataFrom_getD encode dim docs 0 i h1
  rw [Nat.zero_add] at hget
  have hid : preparedChunkId i (docs.getD i defaultDoc) = "chunk_" ++ toString (i + 1) := by
    unfold preparedChunkId
    rw [pyStrip_eq_empty_of_ws _ h2, if_pos rfl]
  refine ⟨?_, ?_, prepareDataFrom_all_ne encode dim 0 docs⟩
  · unfold prepareData
    rw [hget]
    simpa [prepareRecord] using hid
  · unfold prepareData
    rw [hget]
    rfl

/-- A record whose `chunk_id` is a single space. -/
def wsChunkDoc : Doc := { chunk_id := some " " }

/-- C10 witness: the positional fallback id applied to a batch of one
record with a whitespace-only `chunk_id`. -/
theorem C10_witness :
    0 < [wsChunkDoc].length
    ∧ (([wsChunkDoc].getD 0 defaultDoc).chunk_id.getD "").data.all isPyWs = true
    ∧ (((prepareData (fun _ => []) 4 [wsChunkDoc]).getD 0 defaultInsertRecord).id
          = "chunk_" ++ toString (0 + 1)
      ∧ ((prepareData (fun _ => []) 4 [wsChunkDoc]).getD 0 defaultInsertRecord).chunk_id
          = ((prepareData (fun _ => []) 4 [wsChunkDoc]).getD 0 defaultInsertRecord).id
      ∧ (prepareData (fun _ => []) 4 [wsChunkDoc]).all
          (fun r => !(decide (r.id = ""))) = true) :=
  ⟨by decide, by decide,
   C10_chunk_id_fallback (fun _ => []) 4 [wsChunkDoc] 0 (by decide) (by decide)⟩
